import Mathlib

/-!
Shallow embedding of the `Concrete` state plugin of this repository
(`angr/state_plugins/concrete.py`) and proofs about its synchronization
protocol: register synchronization, simulated-procedure rebinding, memory
page flushing, the on-demand segment-register hook, and the reconciliation
of loaded CLE images with the live memory mappings of the concrete target.

Conventions of the embedding:
- A Python call that may raise an exception which the plugin catches is
  modelled by an `Option` result (`none` is the raised exception):
  `read_register` raising `SimConcreteRegisterError`, `read_memory`
  raising, `get_mappings` raising `NotImplementedError`.
- A raised exception that the plugin does not catch aborts the rest of the
  computation; loops that can abort this way return an extra `Bool` that is
  `false` exactly when an exception escaped.  Mutations performed before the
  raise are kept, as in Python.
- Machine values (register contents, addresses, bytes) are `Nat`.
- The abstract register file is keyed by register name.  Bit overlap
  between a register and its sub-registers is not modelled; the plugin
  writes each full register after its sub-registers, so the per-name view
  is the one the claims are about.
-/

namespace AngrConcrete

/-- One byte of target memory, as a natural number. -/
abbrev Byte := Nat

/-- Register metadata from `archinfo`: the plugin uses `register.name`,
`register.concrete` and `register.subregisters`, where a subregister is a
`(name, offset, size)` tuple. -/
structure RegisterEntry where
  name : String
  concrete : Bool
  subregisters : List (String × Nat × Nat)
  deriving DecidableEq

/-- The architecture metadata consumed by `Concrete.sync`:
`arch.register_list`, `arch.bits` and the byte order selected by
`arch.struct_fmt()` (`true` means little-endian). -/
structure Arch where
  register_list : List RegisterEntry
  bits : Nat
  memory_endness_le : Bool

/-- The `isinstance` dispatch of `_sync_segments`: `ArchAMD64`, `ArchX86`,
or any other architecture. -/
inductive ArchKind
  | amd64
  | x86
  | other

/-- One entry of the memory map of the live process, as returned by
`target.get_mappings()`. -/
structure MemoryMap where
  name : String
  start_address : Nat
  deriving DecidableEq

/-- The concrete target interface.  `read_register` is `none` when the
target raises `SimConcreteRegisterError`; `read_memory` is `none` when the
read raises; `get_mappings` is `none` when the target raises
`NotImplementedError`. -/
structure ConcreteTarget where
  read_register : String → Option Nat
  read_memory : Nat → Nat → Option (List Byte)
  get_mappings : Option (List MemoryMap)

/-- A relocation entry of the main object: `symbol` is the name of the
referenced symbol when the relocation has one (`reloc.symbol.name`). -/
structure Reloc where
  symbol : Option String
  rebased_addr : Nat

/-- A loaded CLE object: its file path (`mapped_object.binary`), its current
`mapped_base`, and its symbol table of relative addresses.  `sync` never
touches the symbols, which is exactly the known approximation noted in the
source: rebasing does not retranslate symbol addresses. -/
structure MappedObject where
  binary : String
  mapped_base : Nat
  symbols : List (String × Nat)
  deriving DecidableEq

/-- The project data consumed by `sync`:
`project._should_use_sim_procedures`, `loader.main_object.pic`,
`loader.main_object.relocs` and `simos.get_binary_header_name()`. -/
structure ProjectInfo where
  should_use_sim_procedures : Bool
  pic : Bool
  relocs : List Reloc
  binary_header_name : List Byte

/-- The persistent fields of the `Concrete` plugin, mirroring
`Concrete.__init__`.  The default values are the default arguments of
`__init__`; the aliasing of the mutable default lists is modelled
separately (see `ConcreteObj` below), here the fields are plain values. -/
structure ConcretePlugin where
  segment_registers_initialized : Bool := false
  segment_registers_callback_initialized : Bool := false
  whitelist : List (Nat × Nat) := []
  fs_register_bp : Option Nat := none
  synchronize_cle : Bool := true
  already_sync_objects_addresses : List String := []

/-- The parts of the simulation state that `sync` reads or mutates:
the register file, the simulated-procedure dispatch (symbol name to hooked
concrete address, updated by `project.rehook_symbol`), the pages currently
cached by the abstract memory, the breakpoints registered with
`state.inspect`, the loaded objects of the loader, and the plugin itself. -/
structure SyncWorld where
  regs : String → Nat
  dispatch : String → Option Nat
  cached_pages : List Nat
  breakpoints : List Nat
  objects : List MappedObject
  concrete : ConcretePlugin
  backer_target_set : Bool

/-- The outcome of one `sync()` call: the mutated state, whether the call
returned normally (`ok = false` means an uncaught exception escaped),
whether the warning about simulating external library code was emitted,
whether `target.get_mappings()` was invoked, and the set of pages the
flush invalidated. -/
structure SyncResult where
  world : SyncWorld
  ok : Bool
  warned_external : Bool
  called_get_mappings : Bool
  invalidated : List Nat

/-- The descriptor table produced by `simos.initialize_gdt_x86`: the plugin
only uses `gdt.addr` and `gdt.limit`. -/
structure GdtInfo where
  addr : Nat
  limit : Nat

/-- `os.path.basename`, restricted to what the plugin needs: the part of
the path after the last slash. -/
def basename_aux : List Char → List Char → List Char
  | acc, [] => acc.reverse
  | acc, c :: cs => if c = '/' then basename_aux [] cs else basename_aux (c :: acc) cs

def basename (path : String) : String := String.mk (basename_aux [] path.data)

/-- The character class of the regex used by `_check_mapping_name`:
a word character (letter, digit or underscore) or an apostrophe. -/
def wordOrApos (c : Char) : Bool :=
  c.isAlphanum || c == '_' || c == Char.ofNat 39

/-- Accumulating tokenizer behind `re_findall_word`: `cur` holds the
reversed current token. -/
def re_findall_aux : List Char → List Char → List (List Char)
  | cur, [] => if cur.isEmpty then [] else [cur.reverse]
  | cur, c :: cs =>
    if wordOrApos c then re_findall_aux (c :: cur) cs
    else if cur.isEmpty then re_findall_aux [] cs
    else cur.reverse :: re_findall_aux [] cs

/-- `re.findall` with the pattern used at line 201 of the source (one or
more word characters or apostrophes): the maximal runs of such characters. -/
def re_findall_word (s : String) : List (List Char) := re_findall_aux [] s.data

/-- `Concrete._check_mapping_name` (source lines 195-206).  Returns
`some true` or `some false` for the boolean result; returns `none` when
indexing the first token raises `IndexError`, which happens exactly when
the names differ and one of the token lists is empty. -/
def check_mapping_name (cle_mapping_name concrete_mapping_name : String) : Option Bool :=
  if cle_mapping_name = concrete_mapping_name then some true
  else
    match re_findall_word cle_mapping_name, re_findall_word concrete_mapping_name with
    | [], _ => none
    | _ :: _, [] => none
    | t :: _, u :: _ => some (t == u)

/-- `struct.unpack(arch.struct_fmt(), bytes)[0]`: decode a byte list as an
unsigned integer, little-endian when `le` is true, big-endian otherwise. -/
def struct_unpack (le : Bool) (bs : List Byte) : Nat :=
  if le then bs.foldr (fun b acc => b + 256 * acc) 0
  else bs.foldl (fun acc b => 256 * acc + b) 0

/-- Does `needle` match the front of the second list? -/
def leadMatch : List Byte → List Byte → Bool
  | [], _ => true
  | _ :: _, [] => false
  | n :: ns, h :: hs => (n == h) && leadMatch ns hs

/-- The Python `in` operator on byte strings: does `needle` occur as a
contiguous segment of the haystack? -/
def substringIn (needle : List Byte) : List Byte → Bool
  | [] => needle.isEmpty
  | h :: hs => leadMatch needle (h :: hs) || substringIn needle hs

/-- `setattr(self.state.regs, name, value)`: point update of the register
file at one name. -/
def set_register (regs : String → Nat) (name : String) (v : Nat) : String → Nat :=
  fun n => if n = name then v else regs n

/-- `Concrete._sync_registers` (source lines 165-175): for each name, read
the register from the target and write it into the abstract register file;
a `SimConcreteRegisterError` (`none`) is caught and logged, and the loop
moves on to the next name. -/
def _sync_registers (target : ConcreteTarget) :
    (String → Nat) → List String → (String → Nat)
  | regs, [] => regs
  | regs, register_name :: rest =>
    match target.read_register register_name with
    | some reg_value => _sync_registers target (set_register regs register_name reg_value) rest
    | none => _sync_registers target regs rest

/-- The body of the register loop of `sync` (source lines 72-81): first the
named sub-registers of the entry, when it has any, then the full register. -/
def sync_register_entry (target : ConcreteTarget) (regs : String → Nat)
    (register : RegisterEntry) : String → Nat :=
  let regs1 :=
    if register.subregisters.isEmpty then regs
    else _sync_registers target regs (register.subregisters.map Prod.fst)
  _sync_registers target regs1 [register.name]

/-- The register loop of `sync` over the filtered list. -/
def sync_register_loop (target : ConcreteTarget) :
    (String → Nat) → List RegisterEntry → (String → Nat)
  | regs, [] => regs
  | regs, register :: rest =>
    sync_register_loop target (sync_register_entry target regs register) rest

/-- Source line 70 and the loop that follows: filter the architecture
register list down to the registers flagged `concrete` and synchronize
them in list order. -/
def sync_all_registers (target : ConcreteTarget) (arch : Arch)
    (regs : String → Nat) : String → Nat :=
  sync_register_loop target regs (arch.register_list.filter (fun x => x.concrete))

/-- `project.rehook_symbol(new_address, symbol_name)`: re-target the
simulated-procedure dispatch of `symbol_name` to the concrete address. -/
def rehook_symbol (dispatch : String → Option Nat) (new_address : Nat)
    (symbol_name : String) : String → Option Nat :=
  fun n => if n = symbol_name then some new_address else dispatch n

/-- The relocation loop of `sync` (source lines 87-95).  Entries without a
symbol are skipped.  For an entry with a symbol, `arch.bits / 8` bytes are
read from the target at the rebased address and decoded with
`struct.unpack`; there is no exception handler in this loop, so a failed
read (or a short read, on which `struct.unpack` raises) escapes: the
returned flag is `false` and the remaining entries are not processed. -/
def sync_simproc_relocs (target : ConcreteTarget) (arch : Arch) :
    List Reloc → (String → Option Nat) → ((String → Option Nat) × Bool)
  | [], dispatch => (dispatch, true)
  | reloc :: rest, dispatch =>
    match reloc.symbol with
    | none => sync_simproc_relocs target arch rest dispatch
    | some symbol_name =>
      match target.read_memory reloc.rebased_addr (arch.bits / 8) with
      | none => (dispatch, false)
      | some bytes =>
        if bytes.length = arch.bits / 8 then
          sync_simproc_relocs target arch rest
            (rehook_symbol dispatch (struct_unpack arch.memory_endness_le bytes) symbol_name)
        else (dispatch, false)

/-- Is the page inside one of the whitelist ranges? -/
def inWhitelist (whitelist : List (Nat × Nat)) (page : Nat) : Bool :=
  whitelist.any (fun r => decide (r.1 ≤ page) && decide (page ≤ r.2))

/-- Modelled from the spec: `self.state.memory.flush_pages(self.whitelist)`
(source line 101) is implemented by the memory plugin, which is not part of
this repository source tree.  Per the spec it discards every page already
cached except those inside a whitelist range.  Returns the kept pages and
the invalidated pages. -/
def flush_pages (whitelist : List (Nat × Nat)) (cached_pages : List Nat) :
    List Nat × List Nat :=
  (cached_pages.filter (fun p => inWhitelist whitelist p),
   cached_pages.filter (fun p => !inWhitelist whitelist p))

/-- The inner mapping loop of the CLE synchronization (source lines
133-163) for one object.  `check_mapping_name` raising (`none`) or a failed
header read escapes the loop uncaught (flag `false`).  On a name match the
first ten bytes at the mapping start are read and the binary header name is
searched in them; on a header match the object is rebased when its
`mapped_base` differs from the mapping start, the mapping name is appended
to the already-synchronized list, and the loop breaks; on a header mismatch
the loop continues with the next mapping. -/
def sync_mapped_object (target : ConcreteTarget) (header : List Byte)
    (mapped_object : MappedObject) (binary_name : String) (already : List String) :
    List MemoryMap → (MappedObject × List String × Bool)
  | [] => (mapped_object, already, true)
  | mmap :: rest =>
    match check_mapping_name binary_name mmap.name with
    | none => (mapped_object, already, false)
    | some false => sync_mapped_object target header mapped_object binary_name already rest
    | some true =>
      match target.read_memory mmap.start_address 10 with
      | none => (mapped_object, already, false)
      | some result =>
        if substringIn header result then
          if mapped_object.mapped_base = mmap.start_address then
            (mapped_object, already ++ [mmap.name], true)
          else
            ({mapped_object with mapped_base := mmap.start_address},
             already ++ [mmap.name], true)
        else sync_mapped_object target header mapped_object binary_name already rest

/-- The outer object loop of the CLE synchronization (source lines
126-163): objects whose basename is already recorded are skipped; an
uncaught exception in the inner loop leaves the remaining objects
unprocessed. -/
def sync_cle_objects (target : ConcreteTarget) (header : List Byte)
    (vmmap : List MemoryMap) :
    List MappedObject → List String → (List MappedObject × List String × Bool)
  | [], already => ([], already, true)
  | obj :: rest, already =>
    let binary_name := basename obj.binary
    if already.contains binary_name then
      let r := sync_cle_objects target header vmmap rest already
      (obj :: r.1, r.2.1, r.2.2)
    else
      let s := sync_mapped_object target header obj binary_name already vmmap
      if s.2.2 then
        let r := sync_cle_objects target header vmmap rest s.2.1
        (s.1 :: r.1, r.2.1, r.2.2)
      else (s.1 :: rest, s.2.1, false)

/-- The tail of `Concrete.sync` from source line 101 on: flush the cached
pages against the whitelist, read the concrete program counter for the exit
log (line 103; an unreadable `pc` raises out of `sync`), install the
segment-register breakpoint when none is recorded as installed (lines
107-113), and run the CLE synchronization when it is enabled (lines
115-163): a `NotImplementedError` from `get_mappings()` permanently clears
`synchronize_cle` and returns. -/
def sync_rest (target : ConcreteTarget) (proj : ProjectInfo) (fresh_bp : Nat)
    (warned : Bool) (w : SyncWorld) : SyncResult :=
  let flushed := flush_pages w.concrete.whitelist w.cached_pages
  let w := {w with cached_pages := flushed.1}
  match target.read_register "pc" with
  | none =>
    { world := w, ok := false, warned_external := warned,
      called_get_mappings := false, invalidated := flushed.2 }
  | some _ =>
    let w :=
      if !w.concrete.segment_registers_callback_initialized then
        {w with
          concrete := {w.concrete with fs_register_bp := some fresh_bp,
                                       segment_registers_callback_initialized := true},
          breakpoints := fresh_bp :: w.breakpoints}
      else w
    if w.concrete.synchronize_cle then
      match target.get_mappings with
      | none =>
        { world := {w with concrete := {w.concrete with synchronize_cle := false}},
          ok := true, warned_external := warned,
          called_get_mappings := true, invalidated := flushed.2 }
      | some vmmap =>
        let r := sync_cle_objects target proj.binary_header_name vmmap w.objects
          w.concrete.already_sync_objects_addresses
        { world := {w with objects := r.1,
                           concrete := {w.concrete with already_sync_objects_addresses := r.2.1}},
          ok := r.2.2, warned_external := warned,
          called_get_mappings := true, invalidated := flushed.2 }
    else
      { world := w, ok := true, warned_external := warned,
        called_get_mappings := false, invalidated := flushed.2 }

/-- `Concrete.sync` (source lines 46-163).  In order: bind the concrete
memory backend, synchronize the concretizable registers, rebind the
simulated procedures when they are in use and the main object is not
position independent (otherwise warn that external library code will be
simulated), then `sync_rest`.  An uncaught exception in the relocation
loop aborts the call there, keeping the mutations made so far. -/
def Concrete.sync (target : ConcreteTarget) (arch : Arch) (proj : ProjectInfo)
    (fresh_bp : Nat) (w : SyncWorld) : SyncResult :=
  let w := {w with backer_target_set := true}
  let w := {w with regs := sync_all_registers target arch w.regs}
  if proj.should_use_sim_procedures && !proj.pic then
    let r := sync_simproc_relocs target arch proj.relocs w.dispatch
    if r.2 then sync_rest target proj fresh_bp false {w with dispatch := r.1}
    else
      { world := {w with dispatch := r.1}, ok := false, warned_external := false,
        called_get_mappings := false, invalidated := [] }
  else
    sync_rest target proj fresh_bp true w

/-- `Concrete._sync_segments` (source lines 177-193), as a transformer of
the plugin fields and the breakpoint list of `state.inspect`.  On AMD64 the
segment bases are initialized through `simos.initialize_segment_register_x64`,
which does not touch the plugin fields; on x86 the descriptor table range
returned by `simos.initialize_gdt_x86` is appended to the whitelist.  Then
the breakpoint recorded in `fs_register_bp` is removed, the segments are
marked initialized, and the handle is cleared. -/
def Concrete._sync_segments (arch_kind : ArchKind) (gdt : GdtInfo)
    (c : ConcretePlugin) (breakpoints : List Nat) : ConcretePlugin × List Nat :=
  let c1 :=
    match arch_kind with
    | ArchKind.x86 => {c with whitelist := c.whitelist ++ [(gdt.addr, gdt.addr + gdt.limit)]}
    | _ => c
  let breakpoints1 := breakpoints.filter (fun b => !(c.fs_register_bp == some b))
  ({c1 with segment_registers_initialized := true, fs_register_bp := none}, breakpoints1)

/-- Iterate `Concrete.sync`, keeping the resulting world each time. -/
def syncIter (target : ConcreteTarget) (arch : Arch) (proj : ProjectInfo)
    (fresh_bp : Nat) : Nat → SyncWorld → SyncWorld
  | 0, w => w
  | k + 1, w => syncIter target arch proj fresh_bp k (Concrete.sync target arch proj fresh_bp w).world

/-- The relocation phase of one `sync` call terminates without an uncaught
exception: either the guard at source line 85 is false, or the relocation
loop runs to completion. -/
def simprocs_ok (target : ConcreteTarget) (arch : Arch) (proj : ProjectInfo)
    (dispatch : String → Option Nat) : Bool :=
  !(proj.should_use_sim_procedures && !proj.pic) ||
    (sync_simproc_relocs target arch proj.relocs dispatch).2

/-! ### Reference semantics of the constructor default arguments

CPython evaluates the default value expressions of a `def` once, when the
`def` itself is executed, and every call that omits the argument receives
the same object.  `Concrete.__init__` (source lines 15-25) declares
`whitelist=[]` and `already_sync_objects_addresses=[]`, so all instances
constructed with the defaults share two list objects, and `Concrete.copy`
(source lines 27-35) passes the very same objects to the new instance.  To
state this, lists are placed in a heap of cells addressed by `Nat`
references and the plugin object stores references. -/

structure PyListHeap where
  pairCells : Nat → List (Nat × Nat)
  strCells : Nat → List String

/-- The single list object created for `whitelist=[]` when `def __init__`
is evaluated. -/
def defaultWhitelistRef : Nat := 0

/-- The single list object created for `already_sync_objects_addresses=[]`
when `def __init__` is evaluated. -/
def defaultAlreadyRef : Nat := 1

/-- The `Concrete` plugin with its two list attributes as references. -/
structure ConcreteObj where
  segment_registers_initialized : Bool
  segment_registers_callback_initialized : Bool
  whitelist : Nat
  fs_register_bp : Option Nat
  synchronize_cle : Bool
  already_sync_objects_addresses : Nat

/-- `Concrete.__init__` under reference semantics: a caller either passes a
list reference or omits the argument (`none`), in which case the shared
default object is bound.  The boolean and handle arguments are passed
through as values. -/
def Concrete.init_obj (segment_registers_initialized : Bool)
    (segment_registers_callback_initialized : Bool) (whitelist : Option Nat)
    (fs_register_bp : Option Nat) (synchronize_cle : Bool)
    (already_sync_objects_addresses : Option Nat) : ConcreteObj :=
  { segment_registers_initialized := segment_registers_initialized
    segment_registers_callback_initialized := segment_registers_callback_initialized
    whitelist := whitelist.getD defaultWhitelistRef
    fs_register_bp := fs_register_bp
    synchronize_cle := synchronize_cle
    already_sync_objects_addresses := already_sync_objects_addresses.getD defaultAlreadyRef }

/-- `Concrete.copy` (source lines 27-35): constructs a new plugin passing
every current attribute, in particular the same two list references. -/
def Concrete.copy_obj (self : ConcreteObj) : ConcreteObj :=
  Concrete.init_obj self.segment_registers_initialized
    self.segment_registers_callback_initialized (some self.whitelist)
    self.fs_register_bp self.synchronize_cle
    (some self.already_sync_objects_addresses)

/-- `list.append` on a pair-list object in the heap. -/
def PyListHeap.appendPair (h : PyListHeap) (ref : Nat) (x : Nat × Nat) : PyListHeap :=
  { h with pairCells := fun r => if r = ref then h.pairCells ref ++ [x] else h.pairCells r }

/-! ### Concrete example inputs used by the witnesses and counterexamples -/

/-- The first four bytes of an ELF file, the value of
`simos.get_binary_header_name()` on Linux. -/
def elfHeader : List Byte := [0x7f, 0x45, 0x4c, 0x46]

/-- Ten bytes of target memory starting with the ELF header. -/
def elfBytes10 : List Byte := [0x7f, 0x45, 0x4c, 0x46, 2, 1, 1, 0, 0, 0]

/-- An empty plugin world around a given object list. -/
def mkWorld (objs : List MappedObject) : SyncWorld :=
  { regs := fun _ => 0, dispatch := fun _ => none, cached_pages := [],
    breakpoints := [], objects := objs, concrete := {}, backer_target_set := false }

/-- C1 example: an architecture whose concretizable registers are a failing
register, then `rax` and `rbx` (spec scenario: target reports
`rax = 0x10`, `rbx = 0x20`). -/
def archC1 : Arch :=
  { register_list :=
      [ { name := "cc_dep1", concrete := true, subregisters := [] },
        { name := "rax", concrete := true, subregisters := [("eax", 0, 4)] },
        { name := "rbx", concrete := true, subregisters := [("ebx", 0, 4)] },
        { name := "d", concrete := false, subregisters := [] } ],
    bits := 64, memory_endness_le := true }

/-- C1 example target: `cc_dep1` raises `SimConcreteRegisterError`, the
others read fine. -/
def targetC1 : ConcreteTarget :=
  { read_register := fun n =>
      if n = "cc_dep1" then none
      else if n = "rax" then some 0x10
      else if n = "eax" then some 0x10
      else if n = "rbx" then some 0x20
      else if n = "ebx" then some 0x20
      else some 0,
    read_memory := fun _ _ => some [],
    get_mappings := some [] }

/-- C2 example: a loader object for libc mapped at `0x9000`. -/
def libcObj : MappedObject := { binary := "/lib/libc.so.6", mapped_base := 0x9000, symbols := [] }

/-- C2 example target: one live mapping named `libc-2.31.so` at `0x9000`
whose first bytes carry the ELF header. -/
def targetC2 : ConcreteTarget :=
  { read_register := fun _ => some 0,
    read_memory := fun _ _ => some elfBytes10,
    get_mappings := some [{ name := "libc-2.31.so", start_address := 0x9000 }] }

/-- An architecture with no registers to synchronize, for the examples that
are not about registers. -/
def archEmpty : Arch := { register_list := [], bits := 64, memory_endness_le := true }

/-- C2 example project: simulated procedures disabled, ELF header. -/
def projC2 : ProjectInfo :=
  { should_use_sim_procedures := false, pic := false, relocs := [], binary_header_name := elfHeader }

/-- C3 example plugin: the callback is recorded as installed with handle 7. -/
def pluginC3 : ConcretePlugin :=
  { segment_registers_initialized := false, segment_registers_callback_initialized := true,
    whitelist := [], fs_register_bp := some 7, synchronize_cle := true,
    already_sync_objects_addresses := [] }

/-- C3 example world: a state carrying `pluginC3`, so a hook is recorded as
installed. -/
def worldC3 : SyncWorld :=
  { regs := fun _ => 0, dispatch := fun _ => none, cached_pages := [],
    breakpoints := [7], objects := [], concrete := pluginC3, backer_target_set := false }

/-- C4 example target: mapping enumeration raises `NotImplementedError`. -/
def targetC4 : ConcreteTarget :=
  { read_register := fun _ => some 0, read_memory := fun _ _ => some [],
    get_mappings := none }

/-- C5 example target (spec scenario): memory at `0x4010` holds the eight
little-endian bytes of `0x7f0000001234`. -/
def targetC5 : ConcreteTarget :=
  { read_register := fun _ => some 0,
    read_memory := fun addr n =>
      if addr = 0x4010 && n = 8 then some [0x34, 0x12, 0x00, 0x00, 0x00, 0x7f, 0x00, 0x00]
      else none,
    get_mappings := some [] }

/-- C5 example project: one relocation for `printf` at rebased address
`0x4010`, simulated procedures in use, main object not PIC. -/
def projC5 : ProjectInfo :=
  { should_use_sim_procedures := true, pic := false,
    relocs := [{ symbol := some "printf", rebased_addr := 0x4010 }],
    binary_header_name := elfHeader }

/-- C6 example target: the read at `0x100` raises, the read at `0x200`
succeeds with eight zero bytes. -/
def targetC6 : ConcreteTarget :=
  { read_register := fun _ => some 0,
    read_memory := fun addr n =>
      if addr = 0x100 then none else some (List.replicate n 0),
    get_mappings := some [] }

/-- C6 example relocations: both have symbols; the first read fails. -/
def relocsC6 : List Reloc :=
  [{ symbol := some "a", rebased_addr := 0x100 }, { symbol := some "b", rebased_addr := 0x200 }]

/-- C7 example object (spec scenario): libc loaded at abstract base
`0x7000`, with one symbol. -/
def objC7 : MappedObject :=
  { binary := "/usr/lib/libc.so.6", mapped_base := 0x7000, symbols := [("malloc", 0x100)] }

/-- C7 example mapping: `libc-2.31.so` live at `0x9000`. -/
def mmapC7 : MemoryMap := { name := "libc-2.31.so", start_address := 0x9000 }

/-- C10 example name: a single apostrophe, a name with no word character. -/
def aposName : String := String.mk [Char.ofNat 39]

/-- C9 example heap: all list objects empty. -/
def heap0 : PyListHeap := { pairCells := fun _ => [], strCells := fun _ => [] }

/-- C9 example: a plugin constructed as `Concrete()`, every argument left
at its default. -/
def concA : ConcreteObj := Concrete.init_obj false false none none true none

/-- C9 example: a second, independently constructed `Concrete()`. -/
def concB : ConcreteObj := Concrete.init_obj false false none none true none

/-! ## Theorems -/

/-- Once a name holds the value the target reports for it, any further
register synchronization keeps it: a write at a different name leaves it
alone, and a write at the same name rewrites the same target value. -/
theorem sync_registers_preserve (target : ConcreteTarget) (n : String) (v : Nat)
    (hv : target.read_register n = some v) :
    ∀ (names : List String) (regs : String → Nat), regs n = v →
      _sync_registers target regs names n = v := by
  intro names
  induction names with
  | nil => intro regs h; simpa [_sync_registers] using h
  | cons m ms ih =>
    intro regs h
    simp only [_sync_registers]
    cases hm : target.read_register m with
    | none => exact ih regs h
    | some v2 =>
      apply ih
      unfold set_register
      by_cases hnm : n = m
      · subst hnm
        rw [hv] at hm
        cases hm
        simp
      · simp [hnm, h]

/-- If a name occurs in the list and the target reads it successfully, the
register file holds the target value after `_sync_registers`. -/
theorem sync_registers_writes (target : ConcreteTarget) (n : String) (v : Nat)
    (hv : target.read_register n = some v) :
    ∀ (names : List String) (regs : String → Nat), n ∈ names →
      _sync_registers target regs names n = v := by
  intro names
  induction names with
  | nil => intro regs h; cases h
  | cons m ms ih =>
    intro regs h
    simp only [_sync_registers]
    cases hm : target.read_register m with
    | none =>
      rcases List.mem_cons.mp h with rfl | hms
      · rw [hv] at hm; cases hm
      · exact ih regs hms
    | some v2 =>
      rcases List.mem_cons.mp h with rfl | hms
      · rw [hv] at hm
        cases hm
        apply sync_registers_preserve target n v hv ms
        simp [set_register]
      · exact ih _ hms

/-- One pass of the register-entry body establishes the target value at the
name of the entry. -/
theorem sync_register_entry_writes (target : ConcreteTarget) (regs : String → Nat)
    (register : RegisterEntry) (v : Nat)
    (hv : target.read_register register.name = some v) :
    sync_register_entry target regs register register.name = v := by
  unfold sync_register_entry
  exact sync_registers_writes target register.name v hv [register.name] _ (by simp)

/-- One pass of the register-entry body preserves an already-correct name. -/
theorem sync_register_entry_preserve (target : ConcreteTarget) (regs : String → Nat)
    (register : RegisterEntry) (n : String) (v : Nat)
    (hv : target.read_register n = some v) (h : regs n = v) :
    sync_register_entry target regs register n = v := by
  unfold sync_register_entry
  apply sync_registers_preserve target n v hv
  cases hsub : register.subregisters.isEmpty with
  | false =>
    rw [if_neg (by simp [hsub])]
    exact sync_registers_preserve target n v hv _ regs h
  | true =>
    rw [if_pos (by simp [hsub])]
    exact h

/-- The register loop preserves an already-correct name. -/
theorem sync_register_loop_preserve (target : ConcreteTarget) (n : String) (v : Nat)
    (hv : target.read_register n = some v) :
    ∀ (entries : List RegisterEntry) (regs : String → Nat), regs n = v →
      sync_register_loop target regs entries n = v := by
  intro entries
  induction entries with
  | nil => intro regs h; simpa [sync_register_loop] using h
  | cons e es ih =>
    intro regs h
    simp only [sync_register_loop]
    exact ih _ (sync_register_entry_preserve target regs e n v hv h)

/-- If an entry of the loop list carries the name and the target reads the
name successfully, the loop establishes the target value there. -/
theorem sync_register_loop_writes (target : ConcreteTarget) (r : RegisterEntry) (v : Nat)
    (hv : target.read_register r.name = some v) :
    ∀ (entries : List RegisterEntry) (regs : String → Nat), r ∈ entries →
      sync_register_loop target regs entries r.name = v := by
  intro entries
  induction entries with
  | nil => intro regs h; cases h
  | cons e es ih =>
    intro regs h
    simp only [sync_register_loop]
    rcases List.mem_cons.mp h with rfl | hes
    · exact sync_register_loop_preserve target r.name v hv es _
        (sync_register_entry_writes target regs r v hv)
    · exact ih _ hes

/-- No step of `sync_rest` writes the register file, the dispatch table,
the whitelist, the object list, or the warning flag it was given. -/
theorem sync_rest_frame (target : ConcreteTarget) (proj : ProjectInfo)
    (fresh_bp : Nat) (warned : Bool) (w : SyncWorld) :
    (sync_rest target proj fresh_bp warned w).world.regs = w.regs ∧
    (sync_rest target proj fresh_bp warned w).world.dispatch = w.dispatch ∧
    (sync_rest target proj fresh_bp warned w).world.concrete.whitelist = w.concrete.whitelist ∧
    (sync_rest target proj fresh_bp warned w).warned_external = warned := by
  unfold sync_rest
  dsimp only
  cases hpc : target.read_register "pc" with
  | none => exact ⟨rfl, rfl, rfl, rfl⟩
  | some pcv =>
    cases hflag : w.concrete.segment_registers_callback_initialized <;>
      cases hcle : w.concrete.synchronize_cle <;>
        cases hm : target.get_mappings <;>
          simp [hflag, hcle, hm]

/-- The register phase of `sync` leaves the register file of the world at
exactly `sync_all_registers`, whatever happens afterwards. -/
theorem sync_world_regs (target : ConcreteTarget) (arch : Arch) (proj : ProjectInfo)
    (fresh_bp : Nat) (w : SyncWorld) :
    (Concrete.sync target arch proj fresh_bp w).world.regs =
      sync_all_registers target arch w.regs := by
  unfold Concrete.sync
  dsimp only
  cases hguard : proj.should_use_sim_procedures && !proj.pic with
  | false =>
    rw [if_neg (by simp [hguard])]
    exact (sync_rest_frame target proj fresh_bp _ _).1
  | true =>
    rw [if_pos (by simp [hguard])]
    cases hr2 : (sync_simproc_relocs target arch proj.relocs w.dispatch).2 with
    | false => rw [if_neg (by simp [hr2])]
    | true =>
      rw [if_pos (by simp [hr2])]
      exact (sync_rest_frame target proj fresh_bp _ _).1

/-- Claim C1: for every register flagged as concrete in the architecture
register list, processed in list order with the named sub-registers
synchronized before the full register, `sync()` reads the register from the
concrete target and writes it into the abstract register file under the
same name; a `SimConcreteRegisterError` for one register or sub-register is
caught and does not block the synchronization of subsequent registers, so
after `sync()` every should-concretize register for which the target
returned a value equals that value in the abstract register file. -/
theorem sync_concretized_registers_synced (target : ConcreteTarget) (arch : Arch)
    (proj : ProjectInfo) (fresh_bp : Nat) (w : SyncWorld) (r : RegisterEntry) (v : Nat)
    (hr : r ∈ arch.register_list) (hc : r.concrete = true)
    (hv : target.read_register r.name = some v) :
    (Concrete.sync target arch proj fresh_bp w).world.regs r.name = v := by
  rw [sync_world_regs]
  unfold sync_all_registers
  exact sync_register_loop_writes target r v hv _ w.regs
    (List.mem_filter.mpr ⟨hr, by simp [hc]⟩)

/-- Witness for C1, on the spec scenario: the target reports
`rax = 0x10` and `rbx = 0x20`, a register listed before them fails to read,
and after `sync()` the abstract file holds both values. -/
theorem sync_concretized_registers_synced_witness :
    (Concrete.sync targetC1 archC1 projC2 0 (mkWorld [])).world.regs "rax" = 0x10 ∧
    (Concrete.sync targetC1 archC1 projC2 0 (mkWorld [])).world.regs "rbx" = 0x20 := by
  constructor
  · exact sync_concretized_registers_synced targetC1 archC1 projC2 0 (mkWorld [])
      { name := "rax", concrete := true, subregisters := [("eax", 0, 4)] } 0x10
      (by decide) rfl (by decide)
  · exact sync_concretized_registers_synced targetC1 archC1 projC2 0 (mkWorld [])
      { name := "rbx", concrete := true, subregisters := [("ebx", 0, 4)] } 0x20
      (by decide) rfl (by decide)

/-- Splitting the relocation loop: when the first part runs to completion,
the loop over the concatenation continues over the second part from the
dispatch the first part produced. -/
theorem sync_simproc_relocs_append (target : ConcreteTarget) (arch : Arch) :
    ∀ (xs ys : List Reloc) (d : String → Option Nat),
      (sync_simproc_relocs target arch xs d).2 = true →
      sync_simproc_relocs target arch (xs ++ ys) d =
        sync_simproc_relocs target arch ys (sync_simproc_relocs target arch xs d).1 := by
  intro xs
  induction xs with
  | nil => intro ys d _; rfl
  | cons x xs ih =>
    intro ys d h
    rw [List.cons_append]
    cases hs : x.symbol with
    | none =>
      simp only [sync_simproc_relocs, hs] at h ⊢
      exact ih ys d h
    | some symbol_name =>
      cases hm : target.read_memory x.rebased_addr (arch.bits / 8) with
      | none => simp [sync_simproc_relocs, hs, hm] at h
      | some bytes =>
        by_cases hl : bytes.length = arch.bits / 8
        · simp only [sync_simproc_relocs, hs, hm, hl, if_true] at h ⊢
          exact ih ys _ h
        · simp [sync_simproc_relocs, hs, hm, hl] at h

/-- If no entry of the list references the symbol, the relocation loop
leaves the dispatch of that symbol unchanged, whether or not it aborts. -/
theorem sync_simproc_relocs_preserve (target : ConcreteTarget) (arch : Arch) (s : String) :
    ∀ (rs : List Reloc) (d : String → Option Nat), (∀ r ∈ rs, r.symbol ≠ some s) →
      (sync_simproc_relocs target arch rs d).1 s = d s := by
  intro rs
  induction rs with
  | nil => intro d _; rfl
  | cons x xs ih =>
    intro d h
    cases hs : x.symbol with
    | none =>
      simp only [sync_simproc_relocs, hs]
      exact ih d (fun r hr => h r (List.mem_cons_of_mem x hr))
    | some symbol_name =>
      have hne : symbol_name ≠ s := by
        intro he
        exact h x (List.mem_cons_self x xs) (by rw [hs, he])
      cases hm : target.read_memory x.rebased_addr (arch.bits / 8) with
      | none => simp [sync_simproc_relocs, hs, hm]
      | some bytes =>
        by_cases hl : bytes.length = arch.bits / 8
        · simp only [sync_simproc_relocs, hs, hm, hl, if_true]
          rw [ih _ (fun r hr => h r (List.mem_cons_of_mem x hr))]
          simp only [rehook_symbol]
          rw [if_neg (Ne.symm hne)]
        · simp [sync_simproc_relocs, hs, hm, hl]

/-- When the guard at source line 85 is satisfied, the dispatch table after
`sync` is exactly the output of the relocation loop, even when the loop
aborted partway. -/
theorem sync_world_dispatch (target : ConcreteTarget) (arch : Arch) (proj : ProjectInfo)
    (fresh_bp : Nat) (w : SyncWorld)
    (hguard : (proj.should_use_sim_procedures && !proj.pic) = true) :
    (Concrete.sync target arch proj fresh_bp w).world.dispatch =
      (sync_simproc_relocs target arch proj.relocs w.dispatch).1 := by
  unfold Concrete.sync
  dsimp only
  rw [if_pos hguard]
  cases hr2 : (sync_simproc_relocs target arch proj.relocs w.dispatch).2 with
  | false => rw [if_neg (by simp [hr2])]
  | true =>
    rw [if_pos (by simp [hr2])]
    exact (sync_rest_frame target proj fresh_bp _ _).2.1

/-- Claim C5: for each relocation entry that references a named symbol,
the import rebinding reads exactly pointer-width bytes (`arch.bits / 8`) from
the target at the rebased address of the relocation, decodes them as an
unsigned integer in the native byte order of the architecture, and
re-targets the simulated-procedure dispatch of that symbol to the decoded
address.  Stated for an entry the loop reaches (everything before it ran to
completion) whose symbol is not rebound again by a later entry. -/
theorem simproc_reloc_rehooked (target : ConcreteTarget) (arch : Arch) (proj : ProjectInfo)
    (fresh_bp : Nat) (w : SyncWorld) (pre post : List Reloc) (reloc : Reloc)
    (s : String) (bs : List Byte)
    (hguard : proj.should_use_sim_procedures = true) (hpic : proj.pic = false)
    (hrel : proj.relocs = pre ++ reloc :: post)
    (hpre : (sync_simproc_relocs target arch pre w.dispatch).2 = true)
    (hsym : reloc.symbol = some s)
    (hread : target.read_memory reloc.rebased_addr (arch.bits / 8) = some bs)
    (hlen : bs.length = arch.bits / 8)
    (hpost : ∀ r ∈ post, r.symbol ≠ some s) :
    (Concrete.sync target arch proj fresh_bp w).world.dispatch s =
      some (struct_unpack arch.memory_endness_le bs) := by
  rw [sync_world_dispatch target arch proj fresh_bp w (by simp [hguard, hpic])]
  rw [hrel, sync_simproc_relocs_append target arch pre (reloc :: post) w.dispatch hpre]
  simp only [sync_simproc_relocs, hsym, hread, hlen, if_true]
  rw [sync_simproc_relocs_preserve target arch s post _ hpost]
  simp [rehook_symbol]

/-- Witness for C5, on the spec scenario: a relocation for `printf` at
rebased address `0x4010`, target memory there holding the pointer-width
encoding of `0x7f0000001234`; after `sync` the dispatch of `printf` is
re-targeted to `0x7f0000001234`. -/
theorem simproc_reloc_rehooked_witness :
    (Concrete.sync targetC5 archEmpty projC5 0 (mkWorld [])).world.dispatch "printf" =
      some 0x7f0000001234 := by
  have h := simproc_reloc_rehooked targetC5 archEmpty projC5 0 (mkWorld []) [] []
    { symbol := some "printf", rebased_addr := 0x4010 } "printf"
    [0x34, 0x12, 0x00, 0x00, 0x00, 0x7f, 0x00, 0x00]
    rfl rfl rfl rfl rfl (by decide) (by decide) (by simp)
  rw [h]
  decide

/-- Claim C6 counterexample: two relocations with symbols, the read for the
first raises; the loop aborts (the flag is `false`) and the second symbol
is never rebound, although its own read would have succeeded.  The claim
says a per-entry failure does not abort the processing of the remaining
entries; the code has no exception handler in this loop. -/
theorem reloc_failure_aborts_remaining :
    (sync_simproc_relocs targetC6 archEmpty relocsC6 (fun _ => none)).2 = false ∧
    (sync_simproc_relocs targetC6 archEmpty relocsC6 (fun _ => none)).1 "b" = none ∧
    targetC6.read_memory 0x200 8 = some (List.replicate 8 0) := by decide

/-- Claim C6 amended: import rebinding runs only when simulated procedures
are in use and the main image is not position independent (otherwise it is
skipped and the warning that external library code will be simulated is
emitted); relocation entries without a symbol are skipped; but a failure
while processing one relocation entry is not caught: it aborts the
processing of the remaining entries (and the rest of the call). -/
theorem simproc_rebinding_guard_and_abort (target : ConcreteTarget) (arch : Arch)
    (proj : ProjectInfo) (fresh_bp : Nat) (w : SyncWorld) (reloc : Reloc)
    (rest : List Reloc) (d : String → Option Nat) :
    ((proj.should_use_sim_procedures && !proj.pic) = false →
      (Concrete.sync target arch proj fresh_bp w).world.dispatch = w.dispatch ∧
      (Concrete.sync target arch proj fresh_bp w).warned_external = true) ∧
    (reloc.symbol = none →
      sync_simproc_relocs target arch (reloc :: rest) d =
        sync_simproc_relocs target arch rest d) ∧
    (∀ s, reloc.symbol = some s →
      target.read_memory reloc.rebased_addr (arch.bits / 8) = none →
      sync_simproc_relocs target arch (reloc :: rest) d = (d, false)) := by
  refine ⟨fun hguard => ?_, fun hsym => ?_, fun s hsym hm => ?_⟩
  · constructor
    · unfold Concrete.sync
      dsimp only
      rw [if_neg (by simp [hguard])]
      exact (sync_rest_frame target proj fresh_bp _ _).2.1
    · unfold Concrete.sync
      dsimp only
      rw [if_neg (by simp [hguard])]
      exact (sync_rest_frame target proj fresh_bp _ _).2.2.2
  · simp only [sync_simproc_relocs, hsym]
  · simp only [sync_simproc_relocs, hsym, hm]

/-- Witness for the amended C6: the abort branch at the concrete C6 input,
and the warning on a call whose guard is false. -/
theorem simproc_rebinding_guard_and_abort_witness :
    sync_simproc_relocs targetC6 archEmpty relocsC6 (fun _ => none) = (fun _ => none, false) ∧
    (Concrete.sync targetC6 archEmpty projC2 0 (mkWorld [])).warned_external = true := by
  constructor
  · exact (simproc_rebinding_guard_and_abort targetC6 archEmpty projC2 0 (mkWorld [])
      { symbol := some "a", rebased_addr := 0x100 }
      [{ symbol := some "b", rebased_addr := 0x200 }] (fun _ => none)).2.2 "a" rfl (by decide)
  · exact ((simproc_rebinding_guard_and_abort targetC6 archEmpty projC2 0 (mkWorld [])
      { symbol := some "a", rebased_addr := 0x100 } [] (fun _ => none)).1 (by decide)).2

/-- When the plugin has image synchronization disabled, `sync_rest` never
touches `get_mappings` and leaves the flag disabled. -/
theorem sync_rest_cle_disabled (target : ConcreteTarget) (proj : ProjectInfo)
    (fresh_bp : Nat) (warned : Bool) (w : SyncWorld)
    (h : w.concrete.synchronize_cle = false) :
    (sync_rest target proj fresh_bp warned w).called_get_mappings = false ∧
    (sync_rest target proj fresh_bp warned w).world.concrete.synchronize_cle = false := by
  unfold sync_rest
  dsimp only
  cases hpc : target.read_register "pc" with
  | none => exact ⟨rfl, h⟩
  | some pcv =>
    cases hflag : w.concrete.segment_registers_callback_initialized <;> simp [hflag, h]

/-- When the plugin has image synchronization disabled, a whole `sync` call
never invokes `get_mappings` and leaves the flag disabled. -/
theorem sync_cle_disabled (target : ConcreteTarget) (arch : Arch) (proj : ProjectInfo)
    (fresh_bp : Nat) (w : SyncWorld)
    (h : w.concrete.synchronize_cle = false) :
    (Concrete.sync target arch proj fresh_bp w).called_get_mappings = false ∧
    (Concrete.sync target arch proj fresh_bp w).world.concrete.synchronize_cle = false := by
  unfold Concrete.sync
  dsimp only
  by_cases hguard : (proj.should_use_sim_procedures && !proj.pic) = true
  · rw [if_pos hguard]
    by_cases hr2 : (sync_simproc_relocs target arch proj.relocs w.dispatch).2 = true
    · rw [if_pos hr2]
      exact sync_rest_cle_disabled target proj fresh_bp false _ h
    · rw [if_neg hr2]
      exact ⟨rfl, h⟩
  · rw [if_neg hguard]
    exact sync_rest_cle_disabled target proj fresh_bp true _ h

/-- When image synchronization is enabled and `get_mappings` raises
`NotImplementedError`, `sync_rest` reports the call and clears the flag. -/
theorem sync_rest_cle_none (target : ConcreteTarget) (proj : ProjectInfo)
    (fresh_bp : Nat) (warned : Bool) (w : SyncWorld)
    (hcle : w.concrete.synchronize_cle = true)
    (hmap : target.get_mappings = none)
    (hpc : (target.read_register "pc").isSome = true) :
    (sync_rest target proj fresh_bp warned w).called_get_mappings = true ∧
    (sync_rest target proj fresh_bp warned w).world.concrete.synchronize_cle = false := by
  unfold sync_rest
  dsimp only
  cases hpcv : target.read_register "pc" with
  | none => rw [hpcv] at hpc; simp at hpc
  | some pcv =>
    cases hflag : w.concrete.segment_registers_callback_initialized <;>
      simp [hflag, hcle, hmap]

/-- Claim C4: if the mapping enumeration of the target reports that it is
not supported during one `sync()` call, `synchronize_cle` becomes false for
the remainder of the life of the state, and every subsequent `sync()` call
skips image reconciliation entirely and never invokes the mapping
enumeration again. -/
theorem mappings_unsupported_disables_cle_forever (target : ConcreteTarget) (arch : Arch)
    (proj : ProjectInfo) (fresh_bp : Nat) (w : SyncWorld)
    (hcle : w.concrete.synchronize_cle = true)
    (hmap : target.get_mappings = none)
    (hok : simprocs_ok target arch proj w.dispatch = true)
    (hpc : (target.read_register "pc").isSome = true) :
    (Concrete.sync target arch proj fresh_bp w).called_get_mappings = true ∧
    (Concrete.sync target arch proj fresh_bp w).world.concrete.synchronize_cle = false ∧
    ∀ k : Nat,
      (syncIter target arch proj fresh_bp k
          (Concrete.sync target arch proj fresh_bp w).world).concrete.synchronize_cle = false ∧
      (Concrete.sync target arch proj fresh_bp
          (syncIter target arch proj fresh_bp k
            (Concrete.sync target arch proj fresh_bp w).world)).called_get_mappings = false := by
  have hfirst : (Concrete.sync target arch proj fresh_bp w).called_get_mappings = true ∧
      (Concrete.sync target arch proj fresh_bp w).world.concrete.synchronize_cle = false := by
    unfold Concrete.sync
    dsimp only
    by_cases hguard : (proj.should_use_sim_procedures && !proj.pic) = true
    · have hr2 : (sync_simproc_relocs target arch proj.relocs w.dispatch).2 = true := by
        unfold simprocs_ok at hok
        rw [hguard] at hok
        simpa using hok
      rw [if_pos hguard, if_pos hr2]
      exact sync_rest_cle_none target proj fresh_bp false _ hcle hmap hpc
    · rw [if_neg hguard]
      exact sync_rest_cle_none target proj fresh_bp true _ hcle hmap hpc
  have hinv : ∀ (k : Nat) (w2 : SyncWorld), w2.concrete.synchronize_cle = false →
      (syncIter target arch proj fresh_bp k w2).concrete.synchronize_cle = false := by
    intro k
    induction k with
    | zero => intro w2 h2; exact h2
    | succ k ih =>
      intro w2 h2
      simp only [syncIter]
      exact ih _ (sync_cle_disabled target arch proj fresh_bp w2 h2).2
  refine ⟨hfirst.1, hfirst.2, fun k => ?_⟩
  have h1 := hinv k _ hfirst.2
  exact ⟨h1, (sync_cle_disabled target arch proj fresh_bp _ h1).1⟩

/-- Witness for C4: a target whose `get_mappings` raises; after the first
`sync` the flag is cleared, and the call after two more iterations still
does not invoke the enumeration. -/
theorem mappings_unsupported_disables_cle_forever_witness :
    (Concrete.sync targetC4 archEmpty projC2 0 (mkWorld [])).world.concrete.synchronize_cle
        = false ∧
    (Concrete.sync targetC4 archEmpty projC2 0
        (syncIter targetC4 archEmpty projC2 0 2
          (Concrete.sync targetC4 archEmpty projC2 0 (mkWorld [])).world)).called_get_mappings
        = false := by
  have h := mappings_unsupported_disables_cle_forever targetC4 archEmpty projC2 0 (mkWorld [])
    rfl rfl (by decide) rfl
  exact ⟨h.2.1, (h.2.2 2).2⟩

/-- Once no hook install is pending (the callback flag is recorded as
true), `sync_rest` installs nothing: the breakpoint list and the stored
handle are unchanged, and the flag stays true. -/
theorem sync_rest_no_reinstall (target : ConcreteTarget) (proj : ProjectInfo)
    (fresh_bp : Nat) (warned : Bool) (w : SyncWorld)
    (h : w.concrete.segment_registers_callback_initialized = true) :
    (sync_rest target proj fresh_bp warned w).world.breakpoints = w.breakpoints ∧
    (sync_rest target proj fresh_bp warned w).world.concrete.fs_register_bp
      = w.concrete.fs_register_bp ∧
    (sync_rest target proj fresh_bp warned w).world.concrete.segment_registers_callback_initialized
      = true := by
  unfold sync_rest
  dsimp only
  cases hpc : target.read_register "pc" with
  | none => exact ⟨rfl, rfl, h⟩
  | some pcv =>
    dsimp only
    rw [if_neg
      (show ¬((!w.concrete.segment_registers_callback_initialized) = true) by simp [h])]
    by_cases hcle : w.concrete.synchronize_cle = true
    · rw [if_pos hcle]
      cases hm : target.get_mappings with
      | none => exact ⟨rfl, rfl, h⟩
      | some vmmap => exact ⟨rfl, rfl, h⟩
    · rw [if_neg hcle]
      exact ⟨rfl, rfl, h⟩

/-- Once no hook install is pending, a whole `sync` call installs nothing. -/
theorem sync_no_reinstall (target : ConcreteTarget) (arch : Arch) (proj : ProjectInfo)
    (fresh_bp : Nat) (w : SyncWorld)
    (h : w.concrete.segment_registers_callback_initialized = true) :
    (Concrete.sync target arch proj fresh_bp w).world.breakpoints = w.breakpoints ∧
    (Concrete.sync target arch proj fresh_bp w).world.concrete.fs_register_bp
      = w.concrete.fs_register_bp ∧
    (Concrete.sync target arch proj fresh_bp w).world.concrete.segment_registers_callback_initialized
      = true := by
  unfold Concrete.sync
  dsimp only
  by_cases hguard : (proj.should_use_sim_procedures && !proj.pic) = true
  · rw [if_pos hguard]
    by_cases hr2 : (sync_simproc_relocs target arch proj.relocs w.dispatch).2 = true
    · rw [if_pos hr2]
      exact sync_rest_no_reinstall target proj fresh_bp false _ h
    · rw [if_neg hr2]
      exact ⟨rfl, rfl, h⟩
  · rw [if_neg hguard]
    exact sync_rest_no_reinstall target proj fresh_bp true _ h

/-- Claim C3 counterexample: fire `_sync_segments` on a plugin that records
an installed hook (handle 7).  The claim says the hook-installed flag
`segment_registers_callback_initialized` is false after the hook fires; in
the code the flag is never reset, so it is still true. -/
theorem segment_callback_flag_not_cleared :
    (Concrete._sync_segments ArchKind.amd64 { addr := 0, limit := 0 }
        pluginC3 [7]).1.segment_registers_callback_initialized = true := by decide

/-- Claim C3 amended: the hook fires at most once per installation (firing
removes the recorded breakpoint from the interpreter, so it cannot fire
again); after it fires, segments are marked resolved
(`segment_registers_initialized` is true), the stored handle
`fs_register_bp` is cleared to none, and the breakpoint is removed — but
the hook-installed flag `segment_registers_callback_initialized` is NOT
cleared: it keeps its previous value (true), which is also what makes the
install step inside `sync()` idempotent: while the flag is true no second
hook is ever installed and the stored handle is untouched. -/
theorem sync_segments_one_shot_amended (arch_kind : ArchKind) (gdt : GdtInfo)
    (c : ConcretePlugin) (breakpoints : List Nat) (hnd : Nat)
    (target : ConcreteTarget) (arch : Arch) (proj : ProjectInfo) (fresh_bp : Nat)
    (w : SyncWorld) :
    (Concrete._sync_segments arch_kind gdt c breakpoints).1.segment_registers_initialized
      = true ∧
    (Concrete._sync_segments arch_kind gdt c breakpoints).1.fs_register_bp = none ∧
    (Concrete._sync_segments arch_kind gdt c breakpoints).1.segment_registers_callback_initialized
      = c.segment_registers_callback_initialized ∧
    (c.fs_register_bp = some hnd →
      hnd ∉ (Concrete._sync_segments arch_kind gdt c breakpoints).2) ∧
    (w.concrete.segment_registers_callback_initialized = true →
      (Concrete.sync target arch proj fresh_bp w).world.breakpoints = w.breakpoints ∧
      (Concrete.sync target arch proj fresh_bp w).world.concrete.fs_register_bp
        = w.concrete.fs_register_bp ∧
      (Concrete.sync target arch proj fresh_bp
          w).world.concrete.segment_registers_callback_initialized = true) := by
  refine ⟨?_, ?_, ?_, ?_, fun hw => sync_no_reinstall target arch proj fresh_bp w hw⟩
  · cases arch_kind <;> rfl
  · cases arch_kind <;> rfl
  · cases arch_kind <;> rfl
  · intro hfs hmem
    unfold Concrete._sync_segments at hmem
    dsimp only at hmem
    have h2 := (List.mem_filter.mp hmem).2
    rw [hfs] at h2
    simp at h2

/-- Witness for the amended C3: firing on the concrete C3 plugin removes
handle 7 from the breakpoint list, and a `sync` call on a state whose flag
is true leaves its breakpoint list unchanged. -/
theorem sync_segments_one_shot_amended_witness :
    7 ∉ (Concrete._sync_segments ArchKind.x86 { addr := 0x5000, limit := 0xff }
        pluginC3 [7]).2 ∧
    (Concrete.sync targetC4 archEmpty projC2 0 worldC3).world.breakpoints = [7] := by
  have h := sync_segments_one_shot_amended ArchKind.x86 { addr := 0x5000, limit := 0xff }
    pluginC3 [7] 7 targetC4 archEmpty projC2 0 worldC3
  exact ⟨h.2.2.2.1 rfl, (h.2.2.2.2 rfl).1⟩

/-- Helper for C7: walking the mapping list, every earlier mapping that is
not a name match, or is a name match whose header check fails, is passed
over, and the first name-matched header-confirmed mapping ends the loop
with the object rebased (when needed) and the mapping name recorded. -/
theorem sync_mapped_object_finds (target : ConcreteTarget) (header : List Byte)
    (obj : MappedObject) (binary_name : String) (already : List String)
    (mmap : MemoryMap) (post : List MemoryMap) (bs : List Byte)
    (hcand : check_mapping_name binary_name mmap.name = some true)
    (hread : target.read_memory mmap.start_address 10 = some bs)
    (hhdr : substringIn header bs = true) :
    ∀ pre : List MemoryMap,
      (∀ m ∈ pre, check_mapping_name binary_name m.name = some false ∨
        (check_mapping_name binary_name m.name = some true ∧
         ∃ bs2, target.read_memory m.start_address 10 = some bs2 ∧
           substringIn header bs2 = false)) →
      sync_mapped_object target header obj binary_name already (pre ++ mmap :: post) =
        ((if obj.mapped_base = mmap.start_address then obj
          else {obj with mapped_base := mmap.start_address}),
         already ++ [mmap.name], true) := by
  intro pre
  induction pre with
  | nil =>
    intro _
    rw [List.nil_append]
    simp only [sync_mapped_object, hcand, hread]
    rw [if_pos hhdr]
    by_cases hb : obj.mapped_base = mmap.start_address
    · rw [if_pos hb, if_pos hb]
    · rw [if_neg hb, if_neg hb]
  | cons m pre ih =>
    intro hpre
    rw [List.cons_append]
    rcases hpre m (List.mem_cons_self m pre) with hfalse | ⟨htrue, bs2, hbs2, hbad⟩
    · simp only [sync_mapped_object, hfalse]
      exact ih (fun m2 hm2 => hpre m2 (List.mem_cons_of_mem m hm2))
    · simp only [sync_mapped_object, htrue, hbs2]
      rw [if_neg (by simp [hbad])]
      exact ih (fun m2 hm2 => hpre m2 (List.mem_cons_of_mem m hm2))

/-- Claim C7: for a not-yet-synchronized image, a live mapping is a
candidate exactly when `_check_mapping_name` accepts the pair of names
(equal names, or equal first tokens); candidates are confirmed by the
binary-header signature occurring in the ten bytes read at the mapping
start; the first header-confirmed candidate wins and later mappings are
never considered (they do not appear in the result); when the mapped base
already equals the mapping start the object is only recorded, otherwise
its mapped base is rebased to the mapping start; header-mismatched
candidates are skipped and the search continues; and the symbol table of
the object is never retranslated. -/
theorem image_reconciler_first_confirmed_match (target : ConcreteTarget)
    (header : List Byte) (obj : MappedObject) (binary_name : String)
    (already : List String) (pre post : List MemoryMap) (mmap : MemoryMap) (bs : List Byte)
    (hpre : ∀ m ∈ pre, check_mapping_name binary_name m.name = some false ∨
      (check_mapping_name binary_name m.name = some true ∧
       ∃ bs2, target.read_memory m.start_address 10 = some bs2 ∧
         substringIn header bs2 = false))
    (hcand : check_mapping_name binary_name mmap.name = some true)
    (hread : target.read_memory mmap.start_address 10 = some bs)
    (hhdr : substringIn header bs = true) :
    sync_mapped_object target header obj binary_name already (pre ++ mmap :: post) =
      ((if obj.mapped_base = mmap.start_address then obj
        else {obj with mapped_base := mmap.start_address}),
       already ++ [mmap.name], true) ∧
    (sync_mapped_object target header obj binary_name already (pre ++ mmap :: post)).1.symbols
      = obj.symbols := by
  have hmain := sync_mapped_object_finds target header obj binary_name already mmap post bs
    hcand hread hhdr pre hpre
  refine ⟨hmain, ?_⟩
  rw [hmain]
  by_cases hb : obj.mapped_base = mmap.start_address
  · rw [if_pos hb]
  · rw [if_neg hb]

/-- Witness for C7, on the spec scenario: image `libc.so.6` at abstract
base `0x7000`, live mapping `libc-2.31.so` at `0x9000` with a matching ELF
header; the object is rebased to `0x9000`, the mapping name is recorded,
and the symbols are untouched. -/
theorem image_reconciler_first_confirmed_match_witness :
    sync_mapped_object targetC2 elfHeader objC7 "libc.so.6" [] [mmapC7] =
      ({ binary := "/usr/lib/libc.so.6", mapped_base := 0x9000,
         symbols := [("malloc", 0x100)] }, ["libc-2.31.so"], true) := by
  have h := (image_reconciler_first_confirmed_match targetC2 elfHeader objC7 "libc.so.6" []
    [] [] mmapC7 elfBytes10 (by simp) (by decide) (by decide) (by decide)).1
  rw [List.nil_append] at h
  rw [h]
  decide

/-- `sync` itself never modifies the whitelist (only the later firing of
`_sync_segments` appends to it). -/
theorem sync_world_whitelist (target : ConcreteTarget) (arch : Arch) (proj : ProjectInfo)
    (fresh_bp : Nat) (w : SyncWorld) :
    (Concrete.sync target arch proj fresh_bp w).world.concrete.whitelist
      = w.concrete.whitelist := by
  unfold Concrete.sync
  dsimp only
  by_cases hguard : (proj.should_use_sim_procedures && !proj.pic) = true
  · rw [if_pos hguard]
    by_cases hr2 : (sync_simproc_relocs target arch proj.relocs w.dispatch).2 = true
    · rw [if_pos hr2]
      exact (sync_rest_frame target proj fresh_bp _ _).2.2.1
    · rw [if_neg hr2]
  · rw [if_neg hguard]
    exact (sync_rest_frame target proj fresh_bp _ _).2.2.1

/-- Every branch of `sync_rest` reports the pages invalidated by the one
flush, which is computed against the whitelist of the plugin. -/
theorem sync_rest_invalidated (target : ConcreteTarget) (proj : ProjectInfo)
    (fresh_bp : Nat) (warned : Bool) (w : SyncWorld) :
    (sync_rest target proj fresh_bp warned w).invalidated =
      (flush_pages w.concrete.whitelist w.cached_pages).2 := by
  unfold sync_rest
  dsimp only
  cases hpc : target.read_register "pc" with
  | none => rfl
  | some pcv =>
    cases hflag : w.concrete.segment_registers_callback_initialized <;>
      cases hcle : w.concrete.synchronize_cle <;>
        cases hm : target.get_mappings <;>
          simp [hflag, hcle, hm]

/-- A `sync` call either aborts before the flush (no page invalidated) or
invalidates exactly what the flush against the whitelist of the entry state
computed. -/
theorem sync_invalidated_cases (target : ConcreteTarget) (arch : Arch) (proj : ProjectInfo)
    (fresh_bp : Nat) (w : SyncWorld) :
    (Concrete.sync target arch proj fresh_bp w).invalidated = [] ∨
    (Concrete.sync target arch proj fresh_bp w).invalidated =
      (flush_pages w.concrete.whitelist w.cached_pages).2 := by
  unfold Concrete.sync
  dsimp only
  by_cases hguard : (proj.should_use_sim_procedures && !proj.pic) = true
  · rw [if_pos hguard]
    by_cases hr2 : (sync_simproc_relocs target arch proj.relocs w.dispatch).2 = true
    · rw [if_pos hr2]
      exact Or.inr (sync_rest_invalidated target proj fresh_bp false _)
    · rw [if_neg hr2]
      exact Or.inl rfl
  · rw [if_neg hguard]
    exact Or.inr (sync_rest_invalidated target proj fresh_bp true _)

/-- Claim C8: whitelist ranges are only ever added — the x86 segment
resolution path appends the descriptor table range and nothing ever removes
an entry (`sync` leaves the whitelist unchanged) — and the page
invalidation performed during `sync()` passes the whitelist, so whitelisted
pages are never among the invalidated pages. -/
theorem whitelist_monotone_and_respected :
    (∀ (arch_kind : ArchKind) (gdt : GdtInfo) (c : ConcretePlugin) (breakpoints : List Nat),
      (Concrete._sync_segments arch_kind gdt c breakpoints).1.whitelist =
        c.whitelist ++ (match arch_kind with
          | ArchKind.x86 => [(gdt.addr, gdt.addr + gdt.limit)]
          | _ => [])) ∧
    (∀ (target : ConcreteTarget) (arch : Arch) (proj : ProjectInfo)
        (fresh_bp : Nat) (w : SyncWorld),
      (Concrete.sync target arch proj fresh_bp w).world.concrete.whitelist
        = w.concrete.whitelist) ∧
    (∀ (target : ConcreteTarget) (arch : Arch) (proj : ProjectInfo)
        (fresh_bp : Nat) (w : SyncWorld),
      ((Concrete.sync target arch proj fresh_bp w).invalidated).all
        (fun p => !inWhitelist w.concrete.whitelist p) = true) := by
  refine ⟨?_, ?_, ?_⟩
  · intro arch_kind gdt c breakpoints
    cases arch_kind <;> simp [Concrete._sync_segments]
  · intro target arch proj fresh_bp w
    exact sync_world_whitelist target arch proj fresh_bp w
  · intro target arch proj fresh_bp w
    rcases sync_invalidated_cases target arch proj fresh_bp w with h | h
    · simp [h]
    · rw [h]
      unfold flush_pages
      rw [List.all_eq_true]
      intro p hp
      exact (List.mem_filter.mp hp).2

/-- Claim C2, demonstration of a code bug at a concrete input: the skip
check at source line 130 tests the basename of the object
(`libc.so.6`), but lines 147 and 155 append the name of the matching live
mapping (`libc-2.31.so`).  After a first `sync` records the mapping name, a
second `sync` fails the skip test, re-processes the image (reading target
memory again) and appends the mapping name a second time — so the recorded
list gains a duplicate and the image is re-processed, against both the
claim and the comment `this object has already been sync, skip it` in the
source. -/
theorem already_sync_objects_duplicated_and_reprocessed :
    (Concrete.sync targetC2 archEmpty projC2 0
        (mkWorld [libcObj])).world.concrete.already_sync_objects_addresses
      = ["libc-2.31.so"] ∧
    (Concrete.sync targetC2 archEmpty projC2 0
        (Concrete.sync targetC2 archEmpty projC2 0
          (mkWorld [libcObj])).world).world.concrete.already_sync_objects_addresses
      = ["libc-2.31.so", "libc-2.31.so"] := by decide

/-- Claim C9, demonstration of a code bug: CPython evaluates the default
argument expressions `whitelist=[]` and `already_sync_objects_addresses=[]`
once, so two plugins constructed with the defaults hold references to the
same two list objects — an append through the first is visible through the
second — and `Concrete.copy` passes the very same references on, so copies
share the collections of the original instead of deep-copying them. -/
theorem default_collections_shared :
    concA.whitelist = concB.whitelist ∧
    concA.already_sync_objects_addresses = concB.already_sync_objects_addresses ∧
    (heap0.appendPair concA.whitelist (5, 6)).pairCells concB.whitelist = [(5, 6)] ∧
    (Concrete.copy_obj concA).whitelist = concA.whitelist ∧
    (Concrete.copy_obj concA).already_sync_objects_addresses
      = concA.already_sync_objects_addresses := by decide

/-- Claim C10 counterexample: the regex character class of
`_check_mapping_name` also matches apostrophes, so for the pair of unequal
names made of one apostrophe and `x` — the first containing no word
character — the token extraction does not raise: the comparison returns
false. -/
theorem check_mapping_name_apostrophe_no_raise :
    check_mapping_name aposName "x" = some false ∧
    aposName ≠ "x" ∧
    aposName.data.all (fun c => !(c.isAlphanum || c == '_')) = true := by decide

/-- The tokenizer yields no token exactly when the accumulator is empty and
no character of the input is in the regex character class. -/
theorem re_findall_aux_nil_iff :
    ∀ (s cur : List Char),
      (re_findall_aux cur s = [] ↔ cur = [] ∧ ∀ c ∈ s, wordOrApos c = false) := by
  intro s
  induction s with
  | nil =>
    intro cur
    cases cur <;> simp [re_findall_aux]
  | cons c cs ih =>
    intro cur
    simp only [re_findall_aux]
    by_cases hw : wordOrApos c = true
    · rw [if_pos hw, ih (c :: cur)]
      simp [hw]
    · rw [if_neg hw]
      rw [Bool.not_eq_true] at hw
      cases cur with
      | nil =>
        rw [if_pos (by simp)]
        rw [ih []]
        simp [hw]
      | cons d ds =>
        rw [if_neg (by simp)]
        simp

/-- `re.findall` on a name yields no token exactly when the name has no
character of the class. -/
theorem re_findall_word_nil_iff (s : String) :
    re_findall_word s = [] ↔ ∀ c ∈ s.data, wordOrApos c = false := by
  unfold re_findall_word
  rw [re_findall_aux_nil_iff s.data []]
  simp

/-- Claim C10 amended: on unequal names the fallback comparison raises an
out-of-range indexing error exactly when one of the names contains no
character of the regex class — a word character OR an apostrophe (the
pattern is one or more of word-or-apostrophe).  The unstated precondition
of the fallback is therefore that both names contain at least one
word-or-apostrophe character; a name whose only characters are apostrophes
does not raise. -/
theorem check_mapping_name_raise_iff (a b : String) :
    check_mapping_name a b = none ↔
      (a ≠ b ∧ ((∀ c ∈ a.data, wordOrApos c = false) ∨
                (∀ c ∈ b.data, wordOrApos c = false))) := by
  unfold check_mapping_name
  by_cases hab : a = b
  · rw [if_pos hab]
    simp [hab]
  · rw [if_neg hab]
    cases hta : re_findall_word a with
    | nil =>
      constructor
      · intro _
        exact ⟨hab, Or.inl ((re_findall_word_nil_iff a).mp hta)⟩
      · intro _
        rfl
    | cons t ts =>
      cases htb : re_findall_word b with
      | nil =>
        constructor
        · intro _
          exact ⟨hab, Or.inr ((re_findall_word_nil_iff b).mp htb)⟩
        · intro _
          rfl
      | cons u us =>
        constructor
        · intro h
          simp at h
        · rintro ⟨_, hca | hcb⟩
          · have h2 : re_findall_word a = [] := (re_findall_word_nil_iff a).mpr hca
            rw [hta] at h2
            cases h2
          · have h2 : re_findall_word b = [] := (re_findall_word_nil_iff b).mpr hcb
            rw [htb] at h2
            cases h2
